import Mathlib

/-!
Verification development for the quantum quality backend (src/index.js).

The engine is embedded shallowly: JS numbers are modelled as rationals
(`Rat`), spreadsheet rows as an explicit column map plus the identity
fields the code resolves through `a || b || ...` fallback chains, and the
stateful cache as explicit state passing.  `x.toFixed(2)` is modelled by
`round2`, which rounds a rational to two decimal places half-up, the
rounding JS `toFixed` performs on nonnegative values.
-/

/-- One spreadsheet row.  `cols` is the row's numeric columns keyed by their
original (case-varying) header names, modelling the loosely typed JS object.
The identity fields model the result of the code's fallback chains
(`item.ShiftStartTime || item.shiftstarttime || item.Date` parsed and
formatted to `YYYY-MM-DD` for `dateStr`, and likewise for shift, machine,
article number, article name and lot id); `none` models a missing or
unparseable value. -/
structure Row where
  dateStr : Option String
  shiftVal : Option Rat
  machineName : Option String
  articleNumber : Option String
  articleName : Option String
  lotId : Option String
  cols : List (String × Rat)
deriving DecidableEq

/-- Exact-case column access, modelling JS `obj.Key` on the numeric columns. -/
def getExact (r : Row) (k : String) : Option Rat :=
  (r.cols.find? (fun kv => kv.1 == k)).map (fun kv => kv.2)

/-- Models `Number(a || b || ... || 0) || 0`: the first present, nonzero
value in the chain wins; a fully-falsy chain yields 0. -/
def jsOrNum : List (Option Rat) → Rat
  | [] => 0
  | some v :: rest => if v == 0 then jsOrNum rest else v
  | none :: rest => jsOrNum rest

/-- ASCII lowercase of one character, modelling JS `toLowerCase()` on the
header alphabet. -/
def lowerChar (c : Char) : Char :=
  if 'A' ≤ c && c ≤ 'Z' then Char.ofNat (c.toNat + 32) else c

/-- ASCII lowercase of a string. -/
def strLower (s : String) : String := String.mk (s.data.map lowerChar)

/-- Case-insensitive column lookup, modelling
`Object.keys(curr).find(k => k.toLowerCase() === col.toLowerCase())`
followed by `Number(curr[actualCol || col]) || 0`. -/
def colValCI (r : Row) (col : String) : Rat :=
  match r.cols.find? (fun kv => strLower kv.1 == strLower col) with
  | some kv => kv.2
  | none => 0

/-- `Number(item.YarnLength || item.yarnlength) || 0`. -/
def rowYarnLen (r : Row) : Rat := jsOrNum [getExact r "YarnLength", getExact r "yarnlength"]

/-- `Number(curr.YarnFaults || curr.yarnfaults) || 0`. -/
def rowYarnFaults (r : Row) : Rat := jsOrNum [getExact r "YarnFaults", getExact r "yarnfaults"]

/-- `Number(curr.IPRefLength || curr.ipreflength || curr.RefLength || 0) || 0`. -/
def rowIPRef (r : Row) : Rat :=
  jsOrNum [getExact r "IPRefLength", getExact r "ipreflength", getExact r "RefLength"]

/-- `Number(curr.Thin50 || curr.thin50 || 0)`. -/
def rowThin50 (r : Row) : Rat := jsOrNum [getExact r "Thin50", getExact r "thin50"]

/-- `Number(curr.Thick50 || curr.thick50 || 0)`. -/
def rowThick50 (r : Row) : Rat := jsOrNum [getExact r "Thick50", getExact r "thick50"]

/-- `Number(curr.Nep200 || curr.nep200 || 0)`. -/
def rowNep200 (r : Row) : Rat := jsOrNum [getExact r "Nep200", getExact r "nep200"]

/-- `Number(curr.Thin40 || curr.thin40 || 0)`. -/
def rowThin40 (r : Row) : Rat := jsOrNum [getExact r "Thin40", getExact r "thin40"]

/-- `Number(curr.Thick35 || curr.thick35 || 0)`. -/
def rowThick35 (r : Row) : Rat := jsOrNum [getExact r "Thick35", getExact r "thick35"]

/-- `Number(curr.Nep140 || curr.nep140 || 0)`. -/
def rowNep140 (r : Row) : Rat := jsOrNum [getExact r "Nep140", getExact r "nep140"]

/-- `curr.Cuts || curr.cuts || curr.TotalCuts || curr.totalcuts || 0` coerced by `Number`. -/
def rowTotalCutsField (r : Row) : Rat :=
  jsOrNum [getExact r "Cuts", getExact r "cuts", getExact r "TotalCuts", getExact r "totalcuts"]

/-- `curr.ArticleNumber || curr.articlenumber || 'Unknown'`. -/
def artKeyOf (r : Row) : String := r.articleNumber.getD "Unknown"

/-- `curr.MachineName || curr.machinename || curr.Machine || curr.machine || 'Unknown'`. -/
def machKeyOf (r : Row) : String := r.machineName.getD "Unknown"

/-- The 11 alarm columns of the source. -/
def alarmColumns : List String :=
  ["NSABlks", "LABlks", "TABlks", "CABlks", "CCABlks",
   "FABlks", "PPABlks", "PFABlks", "CVpABlks", "HpABlks", "CMTABlks"]

/-- The 9 cut columns of the source. -/
def cutColumns : List String :=
  ["YarnFaults", "YarnJoints", "YarnBreaks", "NCuts", "SCuts", "LCuts", "TCuts", "FDCuts", "PPCuts"]

/-- The 7 quality columns of the source (IPI and HSIPI are derived). -/
def qualityColumns : List String :=
  ["Thin50", "Thick50", "Nep200", "CVAvg", "HAvg", "IPI", "HSIPI"]

/-- The six fixed unit identifiers. -/
def allUnits : List String := ["U-1", "U-2", "U-3", "U-4", "U-5", "U-6"]

/-- `x.toFixed(2)` on a nonnegative rational: round to two decimals, half up. -/
def round2 (q : Rat) : Rat := ((round (q * 100) : Int) : Rat) / 100

/-- Code-unit comparison of character lists, modelling JS default string
comparison used by `Array.prototype.sort()`. -/
def charListLt : List Char → List Char → Bool
  | _, [] => false
  | [], _ :: _ => true
  | a :: as, b :: bs =>
    if a.val < b.val then true else if b.val < a.val then false else charListLt as bs

/-- JS `<` on strings (code-unit lexicographic). -/
def strLtB (a b : String) : Bool := charListLt a.data b.data

/-- Insert into a descending-sorted string list. -/
def insertDescStr (x : String) : List String → List String
  | [] => [x]
  | y :: ys => if strLtB y x then x :: y :: ys else y :: insertDescStr x ys

/-- `.sort().reverse()` on strings: sort descending. -/
def sortDescStr (l : List String) : List String := l.foldr insertDescStr []

/-- Insert into a descending-sorted rational list. -/
def insertDescRat (x : Rat) : List Rat → List Rat
  | [] => [x]
  | y :: ys => if y < x then x :: y :: ys else y :: insertDescRat x ys

/-- `.sort((a, b) => b - a)` on numbers: sort descending. -/
def sortDescRat (l : List Rat) : List Rat := l.foldr insertDescRat []

/-- The in-memory cache `cachedUnitsData`: unit identifier to row list. -/
def Cache := List (String × List Row)

/-- `cachedUnitsData[u] || []`. -/
def cacheGet (c : Cache) (u : String) : List Row :=
  match List.find? (fun p => p.1 == u) c with
  | some p => p.2
  | none => []

/-- `unitFilter ? [unitFilter] : ['U-1', ..., 'U-6']`. -/
def unitsFor (unitFilter : Option String) : List String :=
  match unitFilter with
  | some u => [u]
  | none => allUnits

/-- The pooled `allRecords` used for default-filter discovery. -/
def pooledRows (c : Cache) (unitFilter : Option String) : List Row :=
  ((unitsFor unitFilter).map (cacheGet c)).flatten

/-- `[...new Set(allRecords.map(formattedDate))].filter(Boolean).sort().reverse()`. -/
def availableDatesOf (c : Cache) (unitFilter : Option String) : List String :=
  sortDescStr ((pooledRows c unitFilter).filterMap Row.dateStr).dedup

/-- The distinct shifts present among rows of a given date, zero/missing
dropped by `.filter(Boolean)`, sorted descending by `(a, b) => b - a`. -/
def shiftsForDateDesc (rows : List Row) (td : String) : List Rat :=
  sortDescRat ((((rows.filter (fun r => r.dateStr == some td)).filterMap
    Row.shiftVal).filter (fun s => !(s == 0))).dedup)

/-- The `shiftFilter` argument: absent (`null`), the literal `'all'`, or a
numeric shift value. -/
inductive SFilter
  | absent
  | all
  | given (s : Rat)
deriving DecidableEq

/-- The effective `targetShift` value inside `getQuantumData`: `null`
(no narrowing), a numeric shift, or the string `'All'` that line 273 can
assign when a date has no shifts (which then fails every row's shift
comparison). -/
inductive TShift
  | noFilter
  | num (s : Rat)
  | allSentinel
deriving DecidableEq

/-- The resolved filter triple `(targetDateStr, targetShift, targetLatestShift)`;
`latestShift = none` encodes the `'All'` sentinel. -/
structure Resolved where
  targetDate : Option String
  targetShift : TShift
  latestShift : Option Rat
deriving DecidableEq

/-- Lines 255-258: the defaulted date when `dateFilter` is absent —
`availableDates[0]`, or `availableDates[1] || availableDates[0]` in
dashboard mode. -/
def defaultTargetDate (availableDates : List String) (isDashboard : Bool) : Option String :=
  match availableDates with
  | [] => none
  | d0 :: rest => some (if isDashboard then rest.headD d0 else d0)

/-- Lines 233-280 of `getQuantumData`: compute the effective date and shift
filters and the exposed `latestShiftForDate`. -/
def resolveFilters (c : Cache) (dateFilter : Option String) (shiftFilter : SFilter)
    (unitFilter : Option String) (isDashboard : Bool) : Resolved :=
  let targetShift0 : TShift :=
    match shiftFilter with
    | SFilter.all => TShift.noFilter
    | SFilter.absent => TShift.noFilter
    | SFilter.given s => TShift.num s
  if dateFilter.isNone || (targetShift0 == TShift.noFilter && !(shiftFilter == SFilter.all)) then
    if (pooledRows c unitFilter).isEmpty then ⟨dateFilter, targetShift0, none⟩
    else
      let targetDate1 : Option String :=
        match dateFilter with
        | some d => some d
        | none => defaultTargetDate (availableDatesOf c unitFilter) isDashboard
      match targetDate1 with
      | none => ⟨none, targetShift0, none⟩
      | some td =>
        let latest := (shiftsForDateDesc (pooledRows c unitFilter) td).head?
        let targetShift1 :=
          if targetShift0 == TShift.noFilter && !(shiftFilter == SFilter.all) then
            match latest with
            | some s => TShift.num s
            | none => TShift.allSentinel
          else targetShift0
        ⟨some td, targetShift1, latest⟩
  else ⟨dateFilter, targetShift0, none⟩

/-- Lines 290-313: the per-row filter predicate applied to a unit's rows. -/
def rowPasses (td : Option String) (ts : TShift) (mf : Option String) (r : Row) : Bool :=
  match r.dateStr with
  | none => false
  | some ds =>
    (match td with | some d => ds == d | none => true) &&
    (match ts with
      | TShift.noFilter => true
      | TShift.num s => (match r.shiftVal with | some rs => rs == s | none => false)
      | TShift.allSentinel => false) &&
    (match mf with | some m => r.machineName.getD "undefined" == m | none => true) &&
    !(decide (rowYarnLen r < 300))

/-- Per-quality-column accumulator `{ sum, count, refLength }`. -/
structure QualStat where
  sum : Rat
  count : Nat
  refLength : Rat
deriving DecidableEq

/-- The all-zero accumulator the code initializes each quality column to. -/
def qualZero : QualStat := ⟨0, 0, 0⟩

/-- Lines 382-391 (unit-level pass): the per-row value of a quality column,
with IPI and HSIPI derived from their source columns. -/
def qualityValUnit (r : Row) (col : String) : Rat :=
  if col == "IPI" then rowThin50 r + rowThick50 r + rowNep200 r
  else if col == "HSIPI" then rowThin40 r + rowThick35 r + rowNep140 r
  else colValCI r col

/-- Lines 425-434 (article-level pass): the per-row value of a quality column. -/
def qualityValArt (r : Row) (col : String) : Rat :=
  if col == "IPI" then rowThin50 r + rowThick50 r + rowNep200 r
  else if col == "HSIPI" then rowThin40 r + rowThick35 r + rowNep140 r
  else colValCI r col

/-- Lines 467-476 (machine-level pass): the per-row value of a quality column. -/
def qualityValMach (r : Row) (col : String) : Rat :=
  if col == "IPI" then rowThin50 r + rowThick50 r + rowNep200 r
  else if col == "HSIPI" then rowThin40 r + rowThick35 r + rowNep140 r
  else colValCI r col

/-- One row's contribution to `totalAlarms`: the sum of its 11 alarm columns. -/
def rowAlarmTotal (r : Row) : Rat :=
  alarmColumns.foldl (fun acc col => acc + colValCI r col) 0

/-- `unitCuts[col] += ...` over one row: bump every cut column. -/
def addRowCutsFn (f : String → Rat) (r : Row) : String → Rat :=
  fun c => if cutColumns.contains c then f c + colValCI r c else f c

/-- `alarmBreakdown[col] += ...` over one row: bump every alarm column. -/
def addRowAlarmsFn (f : String → Rat) (r : Row) : String → Rat :=
  fun c => if alarmColumns.contains c then f c + colValCI r c else f c

/-- Bump a quality accumulator by one row's value and reference length. -/
def bumpQual (q : QualStat) (v ref : Rat) : QualStat :=
  ⟨q.sum + v, q.count + 1, q.refLength + ref⟩

/-- Lines 375-379: unit-level cut totals over the filtered records. -/
def unitCutsOf (records : List Row) : String → Rat :=
  records.foldl addRowCutsFn (fun _ => 0)

/-- `unitQuality[col] += { sum, count, refLength }` over one row (lines
382-395): bump every quality column's accumulator. -/
def addRowQualityUnit (f : String → QualStat) (r : Row) : String → QualStat :=
  fun c =>
    if qualityColumns.contains c then bumpQual (f c) (qualityValUnit r c) (rowIPRef r)
    else f c

/-- Lines 382-395: unit-level quality accumulators over the filtered records. -/
def unitQualityOf (records : List Row) : String → QualStat :=
  records.foldl addRowQualityUnit (fun _ => qualZero)

/-- Lines 353-362: unit-level total alarm count over the filtered records. -/
def unitTotalAlarms (records : List Row) : Rat :=
  records.foldl (fun acc r => acc + rowAlarmTotal r) 0

/-- Lines 353-362: unit-level alarm breakdown over the filtered records. -/
def unitAlarmBreakdown (records : List Row) : String → Rat :=
  records.foldl addRowAlarmsFn (fun _ => 0)

/-- Lines 346-347: `records.reduce` sums of faults and yarn length. -/
def totalFaultsOf (records : List Row) : Rat :=
  records.foldl (fun acc r => acc + rowYarnFaults r) 0

/-- Total yarn length of the filtered records. -/
def totalLengthOf (records : List Row) : Rat :=
  records.foldl (fun acc r => acc + rowYarnLen r) 0

/-- Lines 364-367: the dedicated total-cuts sum. -/
def totalCutsOf (records : List Row) : Rat :=
  records.foldl (fun acc r => acc + rowTotalCutsField r) 0

/-- Lines 345-351: `avgYarnFaults` stays 0 unless there are records with
positive total yarn length. -/
def avgYarnFaultsOf (records : List Row) : Rat :=
  if records.isEmpty then 0
  else if 0 < totalLengthOf records then
    round2 (totalFaultsOf records / totalLengthOf records * 100)
  else 0

/-- The per-machine accumulator entry of `articleMap[art].machines`. -/
structure MachAgg where
  machineName : String
  yarnLength : Rat
  cuts : String → Rat
  quality : String → QualStat
  totalAlarms : Rat
  alarmBreakdown : String → Rat

/-- Lines 448-458: a fresh machine entry, all accumulators zeroed. -/
def initMach (name : String) : MachAgg :=
  ⟨name, 0, fun _ => 0, fun _ => qualZero, 0, fun _ => 0⟩

/-- Lines 461-487: add one row into a machine's accumulators. -/
def addRowToMach (m : MachAgg) (r : Row) : MachAgg :=
  { m with
    yarnLength := m.yarnLength + rowYarnLen r
    cuts := addRowCutsFn m.cuts r
    quality := fun c =>
      if qualityColumns.contains c then bumpQual (m.quality c) (qualityValMach r c) (rowIPRef r)
      else m.quality c
    totalAlarms := m.totalAlarms + rowAlarmTotal r
    alarmBreakdown := addRowAlarmsFn m.alarmBreakdown r }

/-- `articleMap[art].machines[mach]` update: bump the existing entry for the
row's machine key or append a fresh one. -/
def updateMachines (r : Row) : List MachAgg → List MachAgg
  | [] => [addRowToMach (initMach (machKeyOf r)) r]
  | m :: rest =>
    if m.machineName == machKeyOf r then addRowToMach m r :: rest
    else m :: updateMachines r rest

/-- The per-article accumulator entry of `articleMap`. -/
structure ArtAgg where
  articleNumber : String
  yarnLength : Rat
  cuts : String → Rat
  quality : String → QualStat
  totalAlarms : Rat
  alarmBreakdown : String → Rat
  machines : List MachAgg

/-- Lines 403-416: a fresh article entry, all accumulators zeroed. -/
def initArt (k : String) : ArtAgg :=
  ⟨k, 0, fun _ => 0, fun _ => qualZero, 0, fun _ => 0, []⟩

/-- Lines 418-487: add one row into an article's accumulators (including its
machine map). -/
def addRowToArt (a : ArtAgg) (r : Row) : ArtAgg :=
  { a with
    yarnLength := a.yarnLength + rowYarnLen r
    cuts := addRowCutsFn a.cuts r
    quality := fun c =>
      if qualityColumns.contains c then bumpQual (a.quality c) (qualityValArt r c) (rowIPRef r)
      else a.quality c
    totalAlarms := a.totalAlarms + rowAlarmTotal r
    alarmBreakdown := addRowAlarmsFn a.alarmBreakdown r
    machines := updateMachines r a.machines }

/-- `articleMap[artNum]` update: bump the existing entry for the row's
article key or append a fresh one. -/
def updateArticlesGo (r : Row) : List ArtAgg → List ArtAgg
  | [] => [addRowToArt (initArt (artKeyOf r)) r]
  | a :: rest =>
    if a.articleNumber == artKeyOf r then addRowToArt a r :: rest
    else a :: updateArticlesGo r rest

/-- Lines 399-488: the grouped `articleMap` built over the filtered records. -/
def buildArticleMap (records : List Row) : List ArtAgg :=
  records.foldl (fun acc r => updateArticlesGo r acc) []

/-- Lines 498-505: article-level final quality value for one column. -/
def artQualFinal (q : QualStat) (col : String) : Rat :=
  if col == "CVAvg" || col == "HAvg" then
    if 0 < q.count then round2 (q.sum / (q.count : Rat)) else 0
  else
    if 0 < q.refLength then round2 (q.sum / q.refLength) else 0

/-- Lines 513-521: machine-level final quality value for one column. -/
def machQualFinal (q : QualStat) (col : String) : Rat :=
  if col == "CVAvg" || col == "HAvg" then
    if 0 < q.count then round2 (q.sum / (q.count : Rat)) else 0
  else
    if 0 < q.refLength then round2 (q.sum / q.refLength) else 0

/-- Lines 548-556: unit-level final quality value for one column. -/
def unitQualFinal (q : QualStat) (col : String) : Rat :=
  if col == "CVAvg" || col == "HAvg" then
    if 0 < q.count then round2 (q.sum / (q.count : Rat)) else 0
  else
    if 0 < q.refLength then round2 (q.sum / q.refLength) else 0

/-- The serialized per-machine object of lines 523-529. -/
structure MachResult where
  machineName : String
  cutsPer100km : String → Rat
  qualityVals : String → Rat
  totalAlarms : Rat
  alarmBreakdown : String → Rat

/-- Lines 507-530: finalize one machine's aggregates into rates. -/
def mkMachResult (m : MachAgg) : MachResult :=
  { machineName := m.machineName
    cutsPer100km := fun c =>
      if cutColumns.contains c then
        (if 0 < m.yarnLength then round2 (m.cuts c / m.yarnLength * 100) else 0)
      else 0
    qualityVals := fun c =>
      if qualityColumns.contains c then machQualFinal (m.quality c) c else 0
    totalAlarms := m.totalAlarms
    alarmBreakdown := m.alarmBreakdown }

/-- The serialized per-article object of lines 532-539. -/
structure ArtResult where
  articleNumber : String
  cutsPer100km : String → Rat
  qualityVals : String → Rat
  totalAlarms : Rat
  alarmBreakdown : String → Rat
  machines : List MachResult

/-- Lines 491-540: finalize one article's aggregates into rates. -/
def mkArtResult (a : ArtAgg) : ArtResult :=
  { articleNumber := a.articleNumber
    cutsPer100km := fun c =>
      if cutColumns.contains c then
        (if 0 < a.yarnLength then round2 (a.cuts c / a.yarnLength * 100) else 0)
      else 0
    qualityVals := fun c =>
      if qualityColumns.contains c then artQualFinal (a.quality c) c else 0
    totalAlarms := a.totalAlarms
    alarmBreakdown := a.alarmBreakdown
    machines := a.machines.map mkMachResult }

/-- The full per-unit result object of lines 558-572. -/
structure UnitData where
  unit : String
  yarnFaults : Rat
  totalAlarms : Rat
  alarmsPer1000km : Rat
  alarmBreakdown : String → Rat
  totalCuts : Rat
  cutsPer100km : Rat
  unitCuts : String → Rat
  unitQuality : String → Rat
  shiftStartTime : Option String
  shiftNumber : TShift
  latestShift : Option Rat
  articles : List ArtResult

/-- Lines 315-572 on a non-empty unit: compute every aggregate from the
filtered records. -/
def mkUnitData (u : String) (records : List Row) (td : Option String) (ts : TShift)
    (latest : Option Rat) : UnitData :=
  let totalLength := totalLengthOf records
  { unit := u
    yarnFaults := avgYarnFaultsOf records
    totalAlarms := unitTotalAlarms records
    alarmsPer1000km :=
      if !records.isEmpty && 0 < totalLength then
        round2 (unitTotalAlarms records / totalLength * 1000)
      else 0
    alarmBreakdown := unitAlarmBreakdown records
    totalCuts := totalCutsOf records
    cutsPer100km :=
      if !records.isEmpty && 0 < totalLength then
        round2 (totalCutsOf records / totalLength * 100)
      else 0
    unitCuts := fun c =>
      if cutColumns.contains c then
        (if 0 < totalLength then round2 (unitCutsOf records c / totalLength * 100) else 0)
      else 0
    unitQuality := fun c =>
      if qualityColumns.contains c then unitQualFinal (unitQualityOf records c) c else 0
    shiftStartTime := td
    shiftNumber := ts
    latestShift := latest
    articles := (buildArticleMap records).map mkArtResult }

/-- A unit's entry in the `getQuantumData` result: the early empty-cache
return of line 287 (`{ unit, yarnFaults: 'N/A', shiftStartTime: null,
articles: [], latestShift: 'All' }`) or the full object. -/
inductive UnitResult
  | empty (unit : String)
  | full (d : UnitData)

/-- The unit's fault rate as the caller sees it: `none` is the `'N/A'`
sentinel of the empty-cache return. -/
def resultYarnFaults : UnitResult → Option Rat
  | UnitResult.empty _ => none
  | UnitResult.full d => some d.yarnFaults

/-- The unit's article list as the caller sees it. -/
def resultArticles : UnitResult → List ArtResult
  | UnitResult.empty _ => []
  | UnitResult.full d => d.articles

/-- Lines 283-572: process one unit against the resolved filters. -/
def processUnit (u : String) (jsonData : List Row) (td : Option String) (ts : TShift)
    (mf : Option String) (latest : Option Rat) : UnitResult :=
  if jsonData.isEmpty then UnitResult.empty u
  else UnitResult.full (mkUnitData u (jsonData.filter (rowPasses td ts mf)) td ts latest)

/-- `getQuantumData`: resolve filters, then process every requested unit. -/
def getQuantumData (c : Cache) (dateFilter : Option String) (shiftFilter : SFilter)
    (unitFilter : Option String) (machineFilter : Option String) (isDashboard : Bool) :
    List UnitResult :=
  let res := resolveFilters c dateFilter shiftFilter unitFilter isDashboard
  (unitsFor unitFilter).map
    (fun u => processUnit u (cacheGet c u) res.targetDate res.targetShift machineFilter
      res.latestShift)

/-- `fetchAllUnitsData` (lines 209-231): the load of one refresh cycle.
`load u` is the download-and-parse outcome for unit `u`; on failure the
unit keeps its previous rows (`cachedUnitsData[unit] || []`).  The composite
`newData` replaces the cache in a single assignment. -/
def fetchAllUnitsData (old : Cache) (load : String → Except Unit (List Row)) : Cache :=
  allUnits.map (fun u => (u,
    match load u with
    | Except.ok rows => rows
    | Except.error _ => cacheGet old u))

/-- The process-wide mutable state: the row cache, the precomputed live
snapshot and the last refresh timestamp (modelled as a `Nat` clock). -/
structure SysState where
  cache : Cache
  live : Option (List UnitResult)
  lastFetchTime : Option Nat

/-- `updateQuantumLiveData` (lines 582-587): refresh the cache, recompute the
default aggregation snapshot, and stamp the refresh time. -/
def updateQuantumLiveData (s : SysState) (load : String → Except Unit (List Row))
    (now : Nat) : SysState :=
  let c := fetchAllUnitsData s.cache load
  { cache := c
    live := some (getQuantumData c none SFilter.absent none none false)
    lastFetchTime := some now }

/-- Lines 711-716 of the trend endpoint: the grouping label of a row. -/
def labelOf (firstColumn : String) (unit : String) (r : Row) : String :=
  if firstColumn == "unit" then unit
  else if firstColumn == "articlename" then r.articleName.getD "Unknown"
  else if firstColumn == "articlenumber" then r.articleNumber.getD "Unknown"
  else if firstColumn == "lotid" then r.lotId.getD "Unknown"
  else if firstColumn == "machinename" then r.machineName.getD "Unknown"
  else "Unknown"

/-- Strip whitespace characters, modelling `.replace(/\s/g, '')`. -/
def stripSpaces (s : String) : String := String.mk (s.data.filter (fun c => !c.isWhitespace))

/-- `parameter.toLowerCase().replace(/\s/g, '')`. -/
def normParam (s : String) : String := stripSpaces (strLower s)

/-- Lines 724-746 of the trend endpoint: the measured per-row value of the
requested parameter (IPI, HSIPI and totalAlarms derived; otherwise a
case/whitespace-insensitive column lookup). -/
def trendParamVal (parameter : String) (r : Row) : Rat :=
  if parameter == "IPI" then rowThin50 r + rowThick50 r + rowNep200 r
  else if parameter == "HSIPI" then rowThin40 r + rowThick35 r + rowNep140 r
  else if parameter == "totalAlarms" then
    alarmColumns.foldl (fun acc col => acc + colValCI r col) 0
  else
    match r.cols.find? (fun kv => normParam kv.1 == normParam parameter) with
    | some kv => kv.2
    | none => 0

/-- The trend accumulator `{ sum, refLength, yarnLength, count }`. -/
structure TrendStat where
  sum : Rat
  refLength : Rat
  yarnLength : Rat
  count : Nat
deriving DecidableEq

/-- A fresh trend accumulator. -/
def emptyTStat : TrendStat := ⟨0, 0, 0, 0⟩

/-- Add one row's contribution into a trend accumulator. -/
def bumpStat (s : TrendStat) (val ref yl : Rat) : TrendStat :=
  ⟨s.sum + val, s.refLength + ref, s.yarnLength + yl, s.count + 1⟩

/-- One `(date, label)` bucket: its accumulator plus the nested per-machine
accumulators for drill-down. -/
structure TrendBucket where
  stat : TrendStat
  machines : List (String × TrendStat)
deriving DecidableEq

/-- A fresh bucket. -/
def emptyBucket : TrendBucket := ⟨emptyTStat, []⟩

/-- Update the entry at `key` of an association list, creating it from
`init` first when absent (the `if (!map[k]) map[k] = init` idiom). -/
def updateAssoc {β : Type} (key : String) (init : β) (f : β → β) :
    List (String × β) → List (String × β)
  | [] => [(key, f init)]
  | kv :: rest => if kv.1 == key then (kv.1, f kv.2) :: rest else kv :: updateAssoc key init f rest

/-- `trendMap`: date, then label, to bucket. -/
def TrendMap := List (String × List (String × TrendBucket))

/-- Lines 700-770: fold one row of one unit into the trend map (date
validity check, label selection, label-value filter, accumulator bumps at
the bucket and at its machine entry). -/
def addTrendRow (firstColumn parameter : String) (filterValues : Option (List String))
    (unit : String) (tm : TrendMap) (r : Row) : TrendMap :=
  match r.dateStr with
  | none => tm
  | some dateStr =>
    let label := labelOf firstColumn unit r
    if (match filterValues with | some fv => !(fv.contains label) | none => false) then tm
    else
      let val := trendParamVal parameter r
      let ipRef := rowIPRef r
      let yl := rowYarnLen r
      let mach := machKeyOf r
      updateAssoc dateStr []
        (updateAssoc label emptyBucket (fun b =>
          { stat := bumpStat b.stat val ipRef yl
            machines := updateAssoc mach emptyTStat (fun s => bumpStat s val ipRef yl)
              b.machines }))
        tm

/-- Lines 697-771: the full trend accumulation over the cache, honoring the
optional unit filter. -/
def buildTrendMap (c : Cache) (firstColumn parameter : String)
    (unitFilter : Option String) (filterValues : Option (List String)) : TrendMap :=
  c.foldl
    (fun tm entry =>
      if (match unitFilter with | some uf => !(entry.1 == uf) | none => false) then tm
      else entry.2.foldl (addTrendRow firstColumn parameter filterValues entry.1) tm)
    []

/-- Lines 781-797: `calculateFinal`, the per-bucket value selected by the
`group` kind. -/
def calculateFinal (group parameter : String) (s : TrendStat) : Rat :=
  if group == "quality" then
    if parameter == "CVAvg" || parameter == "HAvg" then
      (if 0 < s.count then round2 (s.sum / (s.count : Rat)) else 0)
    else
      (if 0 < s.refLength then round2 (s.sum / s.refLength) else 0)
  else if group == "cuts" || group == "cmt" then
    (if 0 < s.yarnLength then round2 (s.sum / s.yarnLength * 100) else 0)
  else if group == "alarms" then s.sum
  else s.sum

/-- Lines 824-837: the inline per-machine value computation of the
`drillDownData` pass. -/
def drillDownVal (group parameter : String) (s : TrendStat) : Rat :=
  if group == "quality" then
    if parameter == "CVAvg" || parameter == "HAvg" then
      (if 0 < s.count then round2 (s.sum / (s.count : Rat)) else 0)
    else
      (if 0 < s.refLength then round2 (s.sum / s.refLength) else 0)
  else if group == "cuts" || group == "cmt" then
    (if 0 < s.yarnLength then round2 (s.sum / s.yarnLength * 100) else 0)
  else if group == "alarms" then s.sum
  else s.sum

/-- Look up the bucket of a `(date, label)` pair in a trend map. -/
def tmBucket (tm : TrendMap) (d l : String) : Option TrendBucket :=
  (List.find? (fun e => e.1 == d) tm).bind
    (fun e => (List.find? (fun e2 => e2.1 == l) e.2).map (fun e2 => e2.2))

/-- Machine rollup invariant for one article: the machine cut totals sum to
the article's cut total. -/
def MachOK (col : String) (a : ArtAgg) : Prop :=
  ((a.machines.map (fun m => m.cuts col)).sum) = a.cuts col

/-- Article keys of an article map, in insertion order. -/
def artKeys (arts : List ArtAgg) : List String := arts.map ArtAgg.articleNumber

/-- Machine keys of a machine map, in insertion order. -/
def machKeys (ms : List MachAgg) : List String := ms.map MachAgg.machineName

/-- The filtered records that fall into one article key. -/
def recordsForArt (records : List Row) (k : String) : List Row :=
  records.filter (fun r => artKeyOf r == k)

/-- The filtered records that fall into one article and machine key. -/
def recordsForMach (records : List Row) (k mk : String) : List Row :=
  records.filter (fun r => artKeyOf r == k && machKeyOf r == mk)

/-- Machine-level count invariant: each quality accumulator has counted
exactly the rows of this article and machine. -/
def MachCountOK (records : List Row) (k : String) (m : MachAgg) : Prop :=
  ∀ col ∈ qualityColumns,
    (m.quality col).count = (recordsForMach records k m.machineName).length

/-- Article-level count invariant: quality counts match the rows of the
article, machine keys are distinct, every row's machine is present, and
every machine satisfies its own count invariant. -/
def ArtCountOK (records : List Row) (a : ArtAgg) : Prop :=
  (∀ col ∈ qualityColumns,
      (a.quality col).count = (recordsForArt records a.articleNumber).length)
  ∧ (machKeys a.machines).Nodup
  ∧ (∀ r ∈ recordsForArt records a.articleNumber, machKeyOf r ∈ machKeys a.machines)
  ∧ (∀ m ∈ a.machines, MachCountOK records a.articleNumber m)

/-- Fixture: a row with yarn length 1000 and 5 yarn faults. -/
def rowA : Row :=
  ⟨some "2024-01-01", some 1, some "M1", some "A1", none, none,
   [("YarnLength", 1000), ("YarnFaults", 5)]⟩

/-- Fixture: a row with yarn length 500 and no YarnFaults column. -/
def rowB : Row :=
  ⟨some "2024-01-01", some 1, some "M2", some "A1", none, none, [("YarnLength", 500)]⟩

/-- Fixture: a one-unit cache with rows on three consecutive dates. -/
def cache3 : Cache :=
  [("U-1",
    [⟨some "2024-01-01", some 1, none, none, none, none, [("YarnLength", 400)]⟩,
     ⟨some "2024-01-02", some 2, none, none, none, none, [("YarnLength", 400)]⟩,
     ⟨some "2024-01-03", some 3, none, none, none, none, [("YarnLength", 400)]⟩])]

/-- Fixture: a one-unit cache with a single row on shift 2. -/
def cacheC7 : Cache :=
  [("U-1", [⟨some "2024-01-01", some 2, none, none, none, none, [("YarnLength", 400)]⟩])]

/-- Fixture: trend row, machine M1, NCuts 4, yarn length 200. -/
def t1 : Row :=
  ⟨some "2024-01-01", none, some "M1", none, none, none,
   [("NCuts", 4), ("YarnLength", 200)]⟩

/-- Fixture: trend row, machine M2, NCuts 6, yarn length 300. -/
def t2 : Row :=
  ⟨some "2024-01-01", none, some "M2", none, none, none,
   [("NCuts", 6), ("YarnLength", 300)]⟩

/-- Fixture: a one-unit cache holding the two trend rows. -/
def cacheT : Cache := [("U-1", [t1, t2])]

/-- Fixture: a row whose yarn length 100 is below the 300 threshold. -/
def rLow : Row :=
  ⟨some "2024-01-01", none, some "M1", none, none, none,
   [("NCuts", 5), ("YarnLength", 100)]⟩

/-- Fixture: a one-unit cache holding only the short row. -/
def cacheLow : Cache := [("U-1", [rLow])]

/-- Fixture: a prior cache for the refresh scenario, with data for U-2. -/
def oldW : Cache := [("U-2", [rowB])]

/-- Fixture: a loader that fails for U-2 and succeeds elsewhere. -/
def loadW : String → Except Unit (List Row) :=
  fun u => if u == "U-2" then Except.error () else Except.ok [rowA]

/-- Fixture: the rows the successful loads deliver. -/
def rowsW : String → List Row := fun _ => [rowA]

theorem contains_of_mem {l : List String} {a : String} (h : a ∈ l) : l.contains a = true := by
  simpa using h

theorem addRowCutsFn_apply_mem (f : String → Rat) (r : Row) (col : String)
    (h : col ∈ cutColumns) : addRowCutsFn f r col = f col + colValCI r col := by
  unfold addRowCutsFn
  rw [if_pos (contains_of_mem h)]

theorem sum_mach_cuts_update (r : Row) (col : String) (h : col ∈ cutColumns) :
    ∀ ms : List MachAgg,
      ((updateMachines r ms).map (fun m => m.cuts col)).sum
        = ((ms.map (fun m => m.cuts col)).sum) + colValCI r col
  | [] => by
    rw [updateMachines]
    simp [addRowToMach, addRowCutsFn_apply_mem _ _ _ h, initMach]
  | m :: rest => by
    rw [updateMachines]
    by_cases hm : m.machineName == machKeyOf r
    · rw [if_pos hm]
      simp only [List.map_cons, List.sum_cons, addRowToMach,
        addRowCutsFn_apply_mem _ _ _ h]
      ring
    · rw [if_neg hm]
      simp only [List.map_cons, List.sum_cons, sum_mach_cuts_update r col h rest]
      ring

theorem sum_art_cuts_update (r : Row) (col : String) (h : col ∈ cutColumns) :
    ∀ arts : List ArtAgg,
      ((updateArticlesGo r arts).map (fun a => a.cuts col)).sum
        = ((arts.map (fun a => a.cuts col)).sum) + colValCI r col
  | [] => by
    rw [updateArticlesGo]
    simp [addRowToArt, addRowCutsFn_apply_mem _ _ _ h, initArt]
  | a :: rest => by
    rw [updateArticlesGo]
    by_cases ha : a.articleNumber == artKeyOf r
    · rw [if_pos ha]
      simp only [List.map_cons, List.sum_cons, addRowToArt,
        addRowCutsFn_apply_mem _ _ _ h]
      ring
    · rw [if_neg ha]
      simp only [List.map_cons, List.sum_cons, sum_art_cuts_update r col h rest]
      ring

theorem foldl_addRowCutsFn (col : String) (h : col ∈ cutColumns) :
    ∀ (records : List Row) (f : String → Rat),
      (records.foldl addRowCutsFn f) col
        = f col + ((records.map (fun r => colValCI r col)).sum)
  | [], f => by simp
  | r :: rest, f => by
    simp only [List.foldl_cons, foldl_addRowCutsFn col h rest,
      addRowCutsFn_apply_mem f r col h, List.map_cons, List.sum_cons]
    ring

theorem unitCutsOf_eq_sum (records : List Row) (col : String) (h : col ∈ cutColumns) :
    unitCutsOf records col = ((records.map (fun r => colValCI r col)).sum) := by
  simp [unitCutsOf, foldl_addRowCutsFn col h records]

theorem buildArticleMap_sum_aux (col : String) (h : col ∈ cutColumns) :
    ∀ (records : List Row) (acc : List ArtAgg),
      (((records.foldl (fun acc r => updateArticlesGo r acc) acc).map
          (fun a => a.cuts col)).sum)
        = ((acc.map (fun a => a.cuts col)).sum)
          + ((records.map (fun r => colValCI r col)).sum)
  | [], acc => by simp
  | r :: rest, acc => by
    simp only [List.foldl_cons, buildArticleMap_sum_aux col h rest,
      sum_art_cuts_update r col h acc, List.map_cons, List.sum_cons]
    ring

theorem machOK_addRowToArt (col : String) (h : col ∈ cutColumns) (a : ArtAgg) (r : Row)
    (ha : MachOK col a) : MachOK col (addRowToArt a r) := by
  unfold MachOK at *
  simp only [addRowToArt, sum_mach_cuts_update r col h a.machines, ha,
    addRowCutsFn_apply_mem _ _ _ h]

theorem machOK_updateGo (col : String) (h : col ∈ cutColumns) (r : Row) :
    ∀ arts : List ArtAgg, (∀ a ∈ arts, MachOK col a) →
      ∀ a ∈ updateArticlesGo r arts, MachOK col a := by
  intro arts
  induction arts with
  | nil =>
    intro _ a hm
    rw [updateArticlesGo] at hm
    simp only [List.mem_singleton] at hm
    subst hm
    exact machOK_addRowToArt col h _ r (by simp [MachOK, initArt])
  | cons b rest ih =>
    intro hall a hm
    rw [updateArticlesGo] at hm
    by_cases hb : b.articleNumber == artKeyOf r
    · rw [if_pos hb] at hm
      rcases List.mem_cons.mp hm with h1 | h1
      · exact h1 ▸ machOK_addRowToArt col h b r (hall b (List.mem_cons_self b rest))
      · exact hall a (by simp [h1])
    · rw [if_neg hb] at hm
      rcases List.mem_cons.mp hm with h1 | h1
      · exact h1 ▸ hall b (List.mem_cons_self b rest)
      · exact ih (fun x hx => hall x (List.mem_cons_of_mem _ hx)) a h1

theorem machOK_build_aux (col : String) (h : col ∈ cutColumns) :
    ∀ (records : List Row) (acc : List ArtAgg), (∀ a ∈ acc, MachOK col a) →
      ∀ a ∈ records.foldl (fun acc r => updateArticlesGo r acc) acc, MachOK col a
  | [], acc, hacc => by simpa using hacc
  | r :: rest, acc, hacc => by
    simp only [List.foldl_cons]
    exact machOK_build_aux col h rest _ (machOK_updateGo col h r acc hacc)

theorem pooled_ne_of_dates {c : Cache} {uf : Option String}
    (h : availableDatesOf c uf ≠ []) : (pooledRows c uf).isEmpty = false := by
  rcases hp : pooledRows c uf with _ | ⟨r, rs⟩
  · exfalso
    apply h
    simp [availableDatesOf, hp, sortDescStr]
  · simp

theorem resolveFilters_noDate (c : Cache) (sf : SFilter) (uf : Option String)
    (dash : Bool) (d0 : String) (rest : List String)
    (h : availableDatesOf c uf = d0 :: rest) :
    (resolveFilters c none sf uf dash).targetDate
        = some (if dash then rest.headD d0 else d0)
    ∧ (resolveFilters c none sf uf dash).latestShift
        = (shiftsForDateDesc (pooledRows c uf)
            (if dash then rest.headD d0 else d0)).head? := by
  have hne : (pooledRows c uf).isEmpty = false := pooled_ne_of_dates (by simp [h])
  unfold resolveFilters
  simp [hne, h, defaultTargetDate]

theorem resolveFilters_latest_noShift (c : Cache) (uf : Option String)
    (dash : Bool) (d0 : String)
    (hne : (pooledRows c uf).isEmpty = false) :
    (resolveFilters c (some d0) SFilter.absent uf dash).latestShift
      = (shiftsForDateDesc (pooledRows c uf) d0).head? := by
  unfold resolveFilters
  simp [hne]

theorem resolveFilters_latest_bothGiven (c : Cache) (uf : Option String)
    (dash : Bool) (d0 : String) (s : Rat) :
    (resolveFilters c (some d0) (SFilter.given s) uf dash).latestShift = none
    ∧ (resolveFilters c (some d0) SFilter.all uf dash).latestShift = none := by
  constructor
  · unfold resolveFilters
    simp
  · unfold resolveFilters
    simp

theorem avgYarnFaults_pos (records : List Row) (h1 : records ≠ [])
    (h2 : 0 < totalLengthOf records) :
    avgYarnFaultsOf records
      = round2 (totalFaultsOf records / totalLengthOf records * 100) := by
  unfold avgYarnFaultsOf
  rw [if_neg (by simp [h1]), if_pos h2]

theorem avgYarnFaults_zero (records : List Row) (h : totalLengthOf records = 0) :
    avgYarnFaultsOf records = 0 := by
  unfold avgYarnFaultsOf
  rw [h]
  simp

theorem rowPasses_short (td : Option String) (ts : TShift) (mf : Option String) (r : Row)
    (h : rowYarnLen r < 300) : rowPasses td ts mf r = false := by
  unfold rowPasses
  rcases r.dateStr with _ | ds
  · rfl
  · simp [decide_eq_true h]

theorem cacheGet_map_keys (g : String → List Row) :
    ∀ (l : List String) (u : String), u ∈ l →
      cacheGet (l.map (fun v => (v, g v))) u = g u := by
  intro l
  induction l with
  | nil => simp
  | cons a as ih =>
    intro u hu
    rw [List.map_cons]
    unfold cacheGet
    rw [List.find?]
    by_cases h : a == u
    · simp only [h]
      simp only [beq_iff_eq] at h
      simp [h]
    · simp only [h]
      have hu' : u ∈ as := by
        rcases List.mem_cons.mp hu with h1 | h1
        · exact absurd (by simp [h1]) h
        · exact h1
      have := ih u hu'
      unfold cacheGet at this
      exact this

theorem fetchAllUnitsData_get (old : Cache) (load : String → Except Unit (List Row))
    (u : String) (hu : u ∈ allUnits) :
    cacheGet (fetchAllUnitsData old load) u
      = (match load u with
         | Except.ok rows => rows
         | Except.error _ => cacheGet old u) := by
  unfold fetchAllUnitsData
  exact cacheGet_map_keys _ allUnits u hu

theorem addRowToMach_quality_mem (m : MachAgg) (r : Row) (col : String)
    (h : col ∈ qualityColumns) :
    (addRowToMach m r).quality col
      = bumpQual (m.quality col) (qualityValMach r col) (rowIPRef r) := by
  show (if qualityColumns.contains col then _ else _) = _
  rw [if_pos (contains_of_mem h)]

theorem addRowToArt_quality_mem (a : ArtAgg) (r : Row) (col : String)
    (h : col ∈ qualityColumns) :
    (addRowToArt a r).quality col
      = bumpQual (a.quality col) (qualityValArt r col) (rowIPRef r) := by
  show (if qualityColumns.contains col then _ else _) = _
  rw [if_pos (contains_of_mem h)]

theorem recordsForArt_append (records : List Row) (r : Row) (k : String) :
    recordsForArt (records ++ [r]) k
      = recordsForArt records k ++ (if artKeyOf r == k then [r] else []) := by
  unfold recordsForArt
  rw [List.filter_append]
  congr 1
  simp [List.filter_cons]

theorem recordsForMach_append (records : List Row) (r : Row) (k mk : String) :
    recordsForMach (records ++ [r]) k mk
      = recordsForMach records k mk
          ++ (if artKeyOf r == k && machKeyOf r == mk then [r] else []) := by
  unfold recordsForMach
  rw [List.filter_append]
  congr 1
  simp [List.filter_cons]

theorem machCountOK_extend_ne (records : List Row) (r : Row) (k : String) (m : MachAgg)
    (hne : (artKeyOf r == k && machKeyOf r == m.machineName) = false)
    (h : MachCountOK records k m) : MachCountOK (records ++ [r]) k m := by
  intro col hcol
  rw [recordsForMach_append, hne]
  simpa using h col hcol

theorem updateMachines_spec (records : List Row) (r : Row) (k : String)
    (hk : artKeyOf r = k) :
    ∀ ms : List MachAgg,
      (machKeys ms).Nodup →
      (∀ m ∈ ms, MachCountOK records k m) →
      (machKeyOf r ∉ machKeys ms → recordsForMach records k (machKeyOf r) = []) →
      (machKeys (updateMachines r ms)
          = if machKeyOf r ∈ machKeys ms then machKeys ms
            else machKeys ms ++ [machKeyOf r])
      ∧ (machKeys (updateMachines r ms)).Nodup
      ∧ (∀ m ∈ updateMachines r ms, MachCountOK (records ++ [r]) k m) := by
  intro ms
  induction ms with
  | nil =>
    intro _ _ hempty
    refine ⟨by simp [updateMachines, machKeys, addRowToMach, initMach], ?_, ?_⟩
    · simp [updateMachines, machKeys, addRowToMach, initMach]
    · intro m hm
      rw [updateMachines] at hm
      simp only [List.mem_singleton] at hm
      intro col hcol
      rw [hm]
      rw [addRowToMach_quality_mem _ _ _ hcol]
      have hname : (addRowToMach (initMach (machKeyOf r)) r).machineName = machKeyOf r := rfl
      rw [hname, recordsForMach_append, hempty (by simp [machKeys])]
      simp [bumpQual, initMach, qualZero, hk]
  | cons m0 rest ih =>
    intro hnd hall hempty
    rw [updateMachines]
    by_cases hm0 : m0.machineName == machKeyOf r
    · rw [if_pos hm0]
      have hm0' : m0.machineName = machKeyOf r := by simpa using hm0
      have hkeys : machKeys (addRowToMach m0 r :: rest) = machKeys (m0 :: rest) := by
        simp [machKeys, addRowToMach]
      refine ⟨?_, ?_, ?_⟩
      · rw [hkeys, if_pos (by simp [machKeys, hm0'])]
      · rw [hkeys]; exact hnd
      · intro m hm
        rcases List.mem_cons.mp hm with h1 | h1
        · subst h1
          intro col hcol
          rw [addRowToMach_quality_mem _ _ _ hcol]
          have hname : (addRowToMach m0 r).machineName = m0.machineName := rfl
          rw [hname, recordsForMach_append]
          rw [if_pos (by simp [hk, hm0'])]
          have := hall m0 (List.mem_cons_self m0 rest) col hcol
          simp [bumpQual, this]
        · intro col hcol
          have hne : (artKeyOf r == k && machKeyOf r == m.machineName) = false := by
            have hm_ne : m.machineName ≠ machKeyOf r := by
              have hnotin : m0.machineName ∉ machKeys rest := by
                have := hnd
                rw [machKeys, List.map_cons, List.nodup_cons] at this
                exact this.1
              intro hcontra
              apply hnotin
              rw [hm0', ← hcontra]
              exact List.mem_map_of_mem _ h1
            simp [hm_ne.symm]
          exact machCountOK_extend_ne records r k m hne
            (hall m (List.mem_cons_of_mem m0 h1)) col hcol
    · rw [if_neg hm0]
      have hm0' : m0.machineName ≠ machKeyOf r := by simpa using hm0
      have hnd_rest : (machKeys rest).Nodup := by
        rw [machKeys, List.map_cons, List.nodup_cons] at hnd
        exact hnd.2
      have hempty' : machKeyOf r ∉ machKeys rest →
          recordsForMach records k (machKeyOf r) = [] := by
        intro hnotin
        apply hempty
        rw [machKeys, List.map_cons, List.mem_cons]
        rintro (h1 | h1)
        · exact hm0' h1.symm
        · exact hnotin h1
      obtain ⟨ihkeys, ihnd, ihcnt⟩ := ih hnd_rest
        (fun m hm => hall m (List.mem_cons_of_mem m0 hm)) hempty'
      have hm0notin : m0.machineName ∉ machKeys rest := by
        rw [machKeys, List.map_cons, List.nodup_cons] at hnd
        exact hnd.1
      refine ⟨?_, ?_, ?_⟩
      · rw [machKeys, List.map_cons]
        show m0.machineName :: machKeys (updateMachines r rest) = _
        rw [ihkeys]
        by_cases hin : machKeyOf r ∈ machKeys rest
        · rw [if_pos hin,
            if_pos (by rw [machKeys, List.map_cons, List.mem_cons]; right; exact hin)]
          rfl
        · rw [if_neg hin, if_neg ?_]
          · rfl
          · rw [machKeys, List.map_cons, List.mem_cons]
            rintro (h1 | h1)
            · exact hm0' h1.symm
            · exact hin h1
      · rw [machKeys, List.map_cons]
        show (m0.machineName :: machKeys (updateMachines r rest)).Nodup
        rw [List.nodup_cons]
        refine ⟨?_, ihnd⟩
        rw [ihkeys]
        by_cases hin : machKeyOf r ∈ machKeys rest
        · rw [if_pos hin]; exact hm0notin
        · rw [if_neg hin]
          rw [List.mem_append]
          rintro (h1 | h1)
          · exact hm0notin h1
          · rw [List.mem_singleton] at h1
            exact hm0' h1
      · intro m hm
        rcases List.mem_cons.mp hm with h1 | h1
        · rw [h1]
          have hne : (artKeyOf r == k && machKeyOf r == m0.machineName) = false := by
            simp [hm0'.symm]
          exact machCountOK_extend_ne records r k m0 hne
            (hall m0 (List.mem_cons_self m0 rest))
        · exact ihcnt m h1

theorem artCountOK_extend_ne (records : List Row) (r : Row) (a : ArtAgg)
    (hne : a.articleNumber ≠ artKeyOf r)
    (h : ArtCountOK records a) : ArtCountOK (records ++ [r]) a := by
  obtain ⟨hcnt, hnd, hcompl, hmach⟩ := h
  have hkne : (artKeyOf r == a.articleNumber) = false := by simp [hne.symm]
  have hart : recordsForArt (records ++ [r]) a.articleNumber
      = recordsForArt records a.articleNumber := by
    rw [recordsForArt_append, hkne]
    simp
  refine ⟨?_, hnd, ?_, ?_⟩
  · intro col hcol
    rw [hart]
    exact hcnt col hcol
  · rw [hart]
    exact hcompl
  · intro m hm
    have hbne : (artKeyOf r == a.articleNumber && machKeyOf r == m.machineName)
        = false := by
      simp [hkne]
    exact machCountOK_extend_ne records r a.articleNumber m hbne (hmach m hm)

theorem artCountOK_match (records : List Row) (r : Row) (a : ArtAgg)
    (heq : a.articleNumber = artKeyOf r)
    (h : ArtCountOK records a) : ArtCountOK (records ++ [r]) (addRowToArt a r) := by
  obtain ⟨hcnt, hnd, hcompl, hmach⟩ := h
  have hkey : (addRowToArt a r).articleNumber = a.articleNumber := rfl
  have hkeq : (artKeyOf r == a.articleNumber) = true := by simp [heq]
  have hart : recordsForArt (records ++ [r]) a.articleNumber
      = recordsForArt records a.articleNumber ++ [r] := by
    rw [recordsForArt_append, hkeq]
    simp
  have hempty : machKeyOf r ∉ machKeys a.machines →
      recordsForMach records a.articleNumber (machKeyOf r) = [] := by
    intro hnotin
    rcases hrm : recordsForMach records a.articleNumber (machKeyOf r) with _ | ⟨rr, rs⟩
    · rfl
    · exfalso
      have hrr : rr ∈ recordsForMach records a.articleNumber (machKeyOf r) := by
        rw [hrm]; exact List.mem_cons_self rr rs
      unfold recordsForMach at hrr
      rw [List.mem_filter] at hrr
      obtain ⟨hrr1, hrr2⟩ := hrr
      rw [Bool.and_eq_true] at hrr2
      apply hnotin
      have hra : rr ∈ recordsForArt records a.articleNumber := by
        unfold recordsForArt
        rw [List.mem_filter]
        exact ⟨hrr1, hrr2.1⟩
      have hmk : machKeyOf rr = machKeyOf r := by simpa using hrr2.2
      rw [← hmk]
      exact hcompl rr hra
  obtain ⟨mkeys, mnd, mcnt⟩ :=
    updateMachines_spec records r a.articleNumber heq.symm a.machines hnd hmach hempty
  have hmachs : (addRowToArt a r).machines = updateMachines r a.machines := rfl
  refine ⟨?_, ?_, ?_, ?_⟩
  · intro col hcol
    rw [hkey, addRowToArt_quality_mem a r col hcol, hart]
    simp [bumpQual, hcnt col hcol]
  · rw [hmachs]
    exact mnd
  · intro rr hrr
    rw [hkey, hart, List.mem_append] at hrr
    rw [hmachs, mkeys]
    rcases hrr with h1 | h1
    · have := hcompl rr h1
      by_cases hin : machKeyOf r ∈ machKeys a.machines
      · rw [if_pos hin]; exact this
      · rw [if_neg hin]; exact List.mem_append_left _ this
    · rw [List.mem_singleton] at h1
      rw [h1]
      by_cases hin : machKeyOf r ∈ machKeys a.machines
      · rw [if_pos hin]; exact hin
      · rw [if_neg hin]; exact List.mem_append_right _ (by simp)
  · intro m hm
    rw [hkey]
    rw [hmachs] at hm
    exact mcnt m hm

theorem artCountOK_init (records : List Row) (r : Row)
    (hempty : recordsForArt records (artKeyOf r) = []) :
    ArtCountOK (records ++ [r]) (addRowToArt (initArt (artKeyOf r)) r) := by
  apply artCountOK_match records r _ rfl
  refine ⟨?_, ?_, ?_, ?_⟩
  · intro col hcol
    show qualZero.count = _
    rw [show (initArt (artKeyOf r)).articleNumber = artKeyOf r from rfl, hempty]
    rfl
  · show (machKeys []).Nodup
    simp [machKeys]
  · intro rr hrr
    rw [show (initArt (artKeyOf r)).articleNumber = artKeyOf r from rfl, hempty] at hrr
    simp at hrr
  · intro m hm
    simp only [show (initArt (artKeyOf r)).machines = [] from rfl] at hm
    simp at hm

theorem updateArticlesGo_spec (records : List Row) (r : Row) :
    ∀ arts : List ArtAgg,
      (artKeys arts).Nodup →
      (∀ a ∈ arts, ArtCountOK records a) →
      (artKeyOf r ∉ artKeys arts → recordsForArt records (artKeyOf r) = []) →
      (artKeys (updateArticlesGo r arts)
          = if artKeyOf r ∈ artKeys arts then artKeys arts
            else artKeys arts ++ [artKeyOf r])
      ∧ (artKeys (updateArticlesGo r arts)).Nodup
      ∧ (∀ a ∈ updateArticlesGo r arts, ArtCountOK (records ++ [r]) a) := by
  intro arts
  induction arts with
  | nil =>
    intro _ _ hempty
    refine ⟨by simp [updateArticlesGo, artKeys, addRowToArt, initArt], ?_, ?_⟩
    · simp [updateArticlesGo, artKeys, addRowToArt, initArt]
    · intro a ha
      rw [updateArticlesGo] at ha
      simp only [List.mem_singleton] at ha
      rw [ha]
      exact artCountOK_init records r (hempty (by simp [artKeys]))
  | cons a0 rest ih =>
    intro hnd hall hempty
    rw [updateArticlesGo]
    by_cases ha0 : a0.articleNumber == artKeyOf r
    · rw [if_pos ha0]
      have ha0' : a0.articleNumber = artKeyOf r := by simpa using ha0
      have hkeys : artKeys (addRowToArt a0 r :: rest) = artKeys (a0 :: rest) := by
        simp [artKeys, addRowToArt]
      refine ⟨?_, ?_, ?_⟩
      · rw [hkeys, if_pos (by simp [artKeys, ha0'])]
      · rw [hkeys]; exact hnd
      · intro a ha
        rcases List.mem_cons.mp ha with h1 | h1
        · rw [h1]
          exact artCountOK_match records r a0 ha0' (hall a0 (List.mem_cons_self a0 rest))
        · have ha_ne : a.articleNumber ≠ artKeyOf r := by
            have h2 : a0.articleNumber ∉ artKeys rest := by
              rw [artKeys, List.map_cons, List.nodup_cons] at hnd
              exact hnd.1
            intro hcontra
            apply h2
            rw [ha0', ← hcontra]
            exact List.mem_map_of_mem _ h1
          exact artCountOK_extend_ne records r a ha_ne
            (hall a (List.mem_cons_of_mem a0 h1))
    · rw [if_neg ha0]
      have ha0' : a0.articleNumber ≠ artKeyOf r := by simpa using ha0
      have hnd_rest : (artKeys rest).Nodup := by
        rw [artKeys, List.map_cons, List.nodup_cons] at hnd
        exact hnd.2
      have hempty' : artKeyOf r ∉ artKeys rest →
          recordsForArt records (artKeyOf r) = [] := by
        intro hnotin
        apply hempty
        rw [artKeys, List.map_cons, List.mem_cons]
        rintro (h1 | h1)
        · exact ha0' h1.symm
        · exact hnotin h1
      obtain ⟨ihkeys, ihnd, ihcnt⟩ := ih hnd_rest
        (fun a ha => hall a (List.mem_cons_of_mem a0 ha)) hempty'
      have ha0notin : a0.articleNumber ∉ artKeys rest := by
        rw [artKeys, List.map_cons, List.nodup_cons] at hnd
        exact hnd.1
      refine ⟨?_, ?_, ?_⟩
      · rw [artKeys, List.map_cons]
        show a0.articleNumber :: artKeys (updateArticlesGo r rest) = _
        rw [ihkeys]
        by_cases hin : artKeyOf r ∈ artKeys rest
        · rw [if_pos hin,
            if_pos (by rw [artKeys, List.map_cons, List.mem_cons]; right; exact hin)]
          rfl
        · rw [if_neg hin, if_neg ?_]
          · rfl
          · rw [artKeys, List.map_cons, List.mem_cons]
            rintro (h1 | h1)
            · exact ha0' h1.symm
            · exact hin h1
      · rw [artKeys, List.map_cons]
        show (a0.articleNumber :: artKeys (updateArticlesGo r rest)).Nodup
        rw [List.nodup_cons]
        refine ⟨?_, ihnd⟩
        rw [ihkeys]
        by_cases hin : artKeyOf r ∈ artKeys rest
        · rw [if_pos hin]; exact ha0notin
        · rw [if_neg hin]
          rw [List.mem_append]
          rintro (h1 | h1)
          · exact ha0notin h1
          · rw [List.mem_singleton] at h1
            exact ha0' h1
      · intro a ha
        rcases List.mem_cons.mp ha with h1 | h1
        · rw [h1]
          exact artCountOK_extend_ne records r a0 ha0'
            (hall a0 (List.mem_cons_self a0 rest))
        · exact ihcnt a h1

theorem buildArticleMap_concat (l : List Row) (r : Row) :
    buildArticleMap (l ++ [r]) = updateArticlesGo r (buildArticleMap l) := by
  simp [buildArticleMap, List.foldl_append]

theorem buildArticleMap_spec (records : List Row) :
    (artKeys (buildArticleMap records)).Nodup
    ∧ (∀ rr ∈ records, artKeyOf rr ∈ artKeys (buildArticleMap records))
    ∧ (∀ a ∈ buildArticleMap records, ArtCountOK records a) := by
  induction records using List.reverseRecOn with
  | nil =>
    refine ⟨by simp [buildArticleMap, artKeys], by simp, by simp [buildArticleMap]⟩
  | append_singleton l r ih =>
    obtain ⟨ihnd, ihcompl, ihok⟩ := ih
    have hempty : artKeyOf r ∉ artKeys (buildArticleMap l) →
        recordsForArt l (artKeyOf r) = [] := by
      intro hnotin
      rcases hrm : recordsForArt l (artKeyOf r) with _ | ⟨rr, rs⟩
      · rfl
      · exfalso
        have hrr : rr ∈ recordsForArt l (artKeyOf r) := by
          rw [hrm]; exact List.mem_cons_self rr rs
        unfold recordsForArt at hrr
        rw [List.mem_filter] at hrr
        apply hnotin
        have hkeq : artKeyOf rr = artKeyOf r := by simpa using hrr.2
        rw [← hkeq]
        exact ihcompl rr hrr.1
    obtain ⟨hkeys, hnd, hok⟩ :=
      updateArticlesGo_spec l r (buildArticleMap l) ihnd ihok hempty
    rw [buildArticleMap_concat]
    refine ⟨hnd, ?_, hok⟩
    intro rr hrr
    rw [hkeys]
    rw [List.mem_append] at hrr
    rcases hrr with h1 | h1
    · have := ihcompl rr h1
      by_cases hin : artKeyOf r ∈ artKeys (buildArticleMap l)
      · rw [if_pos hin]; exact this
      · rw [if_neg hin]; exact List.mem_append_left _ this
    · rw [List.mem_singleton] at h1
      rw [h1]
      by_cases hin : artKeyOf r ∈ artKeys (buildArticleMap l)
      · rw [if_pos hin]; exact hin
      · rw [if_neg hin]; exact List.mem_append_right _ (by simp)

theorem addRowQualityUnit_apply_mem (f : String → QualStat) (r : Row) (col : String)
    (h : col ∈ qualityColumns) :
    addRowQualityUnit f r col
      = bumpQual (f col) (qualityValUnit r col) (rowIPRef r) := by
  unfold addRowQualityUnit
  rw [if_pos (contains_of_mem h)]

theorem unitQuality_foldl (col : String) (h : col ∈ qualityColumns) :
    ∀ (records : List Row) (f : String → QualStat),
      (records.foldl addRowQualityUnit f) col
        = ⟨(f col).sum + ((records.map (fun r => qualityValUnit r col)).sum),
           (f col).count + records.length,
           (f col).refLength + ((records.map rowIPRef).sum)⟩
  | [], f => by simp
  | r :: rest, f => by
    simp only [List.foldl_cons, unitQuality_foldl col h rest,
      addRowQualityUnit_apply_mem f r col h, List.map_cons, List.sum_cons,
      List.length_cons, bumpQual]
    simp only [QualStat.mk.injEq]
    refine ⟨by ring, by omega, by ring⟩

theorem unitQualityOf_char (records : List Row) (col : String) (h : col ∈ qualityColumns) :
    unitQualityOf records col
      = ⟨((records.map (fun r => qualityValUnit r col)).sum),
          records.length,
          ((records.map rowIPRef).sum)⟩ := by
  unfold unitQualityOf
  rw [unitQuality_foldl col h records]
  simp [qualZero]

/-- Claim C1: for every filtered row set, rollup conservation holds for every
one of the 9 cut columns — the sum over all articles of an article's
cut-column total equals the unit's cut-column total, and the sum over all
machines within an article equals that article's total. -/
theorem spec_C1 (records : List Row) (col : String) (h : col ∈ cutColumns) :
    (((buildArticleMap records).map (fun a => a.cuts col)).sum = unitCutsOf records col)
    ∧ ∀ a ∈ buildArticleMap records,
        ((a.machines.map (fun m => m.cuts col)).sum) = a.cuts col := by
  constructor
  · rw [unitCutsOf_eq_sum records col h]
    simpa using buildArticleMap_sum_aux col h records []
  · exact machOK_build_aux col h records [] (by simp)

/-- Witness for C1 at a concrete two-row record set and the YarnFaults
cut column. -/
theorem spec_C1_witness :
    ("YarnFaults" ∈ cutColumns)
    ∧ (((buildArticleMap [rowA, rowB]).map (fun a => a.cuts "YarnFaults")).sum
        = unitCutsOf [rowA, rowB] "YarnFaults") :=
  ⟨by decide, (spec_C1 [rowA, rowB] "YarnFaults" (by decide)).1⟩

/-- Claim C2: for every non-empty filtered row set with positive total yarn
length the unit fault rate is (Σ YarnFaults / Σ YarnLength) × 100 rounded to
2 decimals, a missing YarnFaults field contributes 0, the rate is 0 when the
total length is 0, and the concrete two-row snapshot (1000 m with 5 faults
plus 500 m with no faults column) yields 0.33. -/
theorem spec_C2 (u : String) (records : List Row) (td : Option String) (ts : TShift)
    (latest : Option Rat) (h1 : records ≠ []) (h2 : 0 < totalLengthOf records) :
    (mkUnitData u records td ts latest).yarnFaults
        = round2 (totalFaultsOf records / totalLengthOf records * 100)
    ∧ (∀ records2 : List Row, totalLengthOf records2 = 0 → avgYarnFaultsOf records2 = 0)
    ∧ (∀ r : Row, getExact r "YarnFaults" = none → getExact r "yarnfaults" = none →
        rowYarnFaults r = 0)
    ∧ resultYarnFaults (processUnit "U-1" [rowA, rowB] none TShift.noFilter none none)
        = some (33/100) := by
  refine ⟨?_, ?_, ?_, ?_⟩
  · show avgYarnFaultsOf records = _
    exact avgYarnFaults_pos records h1 h2
  · exact avgYarnFaults_zero
  · intro r hy1 hy2
    simp [rowYarnFaults, hy1, hy2, jsOrNum]
  · have hf : List.filter (rowPasses none TShift.noFilter none) [rowA, rowB]
        = [rowA, rowB] := by decide
    have hA : rowYarnLen rowA = 1000 := by decide
    have hB : rowYarnLen rowB = 500 := by decide
    have hFA : rowYarnFaults rowA = 5 := by decide
    have hFB : rowYarnFaults rowB = 0 := by decide
    simp only [processUnit, resultYarnFaults, mkUnitData, hf, avgYarnFaultsOf,
      totalLengthOf, totalFaultsOf, List.foldl_cons, List.foldl_nil, hA, hB, hFA, hFB,
      List.isEmpty_cons, Bool.false_eq_true, if_false, List.isEmpty_nil]
    norm_num [round2, round_eq]

/-- Witness for C2 at the concrete two-row snapshot. -/
theorem spec_C2_witness :
    ([rowA, rowB] ≠ [] ∧ 0 < totalLengthOf [rowA, rowB])
    ∧ (mkUnitData "U-1" [rowA, rowB] none TShift.noFilter none).yarnFaults
        = round2 (totalFaultsOf [rowA, rowB] / totalLengthOf [rowA, rowB] * 100) := by
  have hlen : 0 < totalLengthOf [rowA, rowB] := by
    have hA : rowYarnLen rowA = 1000 := by decide
    have hB : rowYarnLen rowB = 500 := by decide
    simp only [totalLengthOf, List.foldl_cons, List.foldl_nil, hA, hB]
    norm_num
  exact ⟨⟨by decide, hlen⟩,
    (spec_C2 "U-1" [rowA, rowB] none TShift.noFilter none (by decide) hlen).1⟩

/-- Claim C3: IPI and HSIPI are derived per row from their source columns
(IPI = Thin50 + Thick50 + Nep200, HSIPI = Thin40 + Thick35 + Nep140, missing
sources contributing 0), the identical derivation is used at the unit,
article and machine aggregation levels and in the trend engine's parameter
lookup, and a stored IPI or HSIPI column is never read. -/
theorem spec_C3 :
    (∀ r : Row, qualityValUnit r "IPI" = rowThin50 r + rowThick50 r + rowNep200 r
      ∧ qualityValUnit r "HSIPI" = rowThin40 r + rowThick35 r + rowNep140 r)
    ∧ (∀ (r : Row) (col : String), qualityValArt r col = qualityValUnit r col)
    ∧ (∀ (r : Row) (col : String), qualityValMach r col = qualityValUnit r col)
    ∧ (∀ r : Row, trendParamVal "IPI" r = qualityValUnit r "IPI"
      ∧ trendParamVal "HSIPI" r = qualityValUnit r "HSIPI")
    ∧ (∀ (r : Row) (v : Rat),
        qualityValUnit { r with cols := ("IPI", v) :: r.cols } "IPI"
          = qualityValUnit r "IPI"
      ∧ qualityValUnit { r with cols := ("HSIPI", v) :: r.cols } "HSIPI"
          = qualityValUnit r "HSIPI") := by
  refine ⟨?_, fun r col => rfl, fun r col => rfl, ?_, ?_⟩
  · intro r
    constructor
    · simp +decide [qualityValUnit]
    · simp +decide [qualityValUnit]
  · intro r
    constructor
    · simp +decide [trendParamVal, qualityValUnit]
    · simp +decide [trendParamVal, qualityValUnit]
  · intro r v
    constructor
    · simp +decide [qualityValUnit, rowThin50, rowThick50, rowNep200, getExact,
        jsOrNum, List.find?]
    · simp +decide [qualityValUnit, rowThin40, rowThick35, rowNep140, getExact,
        jsOrNum, List.find?]

/-- Claim C4: the trend endpoint's per-bucket value is selected by the group
kind — quality buckets use sum/count for CVAvg or HAvg and sum/refLength
otherwise, cuts and cmt buckets use (sum/yarnLength)×100, alarms and every
other group use the raw sum — the drill-down pass applies the identical
selection, and the concrete two-row cuts example (yarn lengths 200 and 300,
summed cut value 10) yields 2.00. -/
theorem spec_C4 :
    (∀ (g p : String) (s : TrendStat),
      (g = "quality" → (p = "CVAvg" ∨ p = "HAvg") →
        calculateFinal g p s
          = (if 0 < s.count then round2 (s.sum / (s.count : Rat)) else 0))
      ∧ (g = "quality" → p ≠ "CVAvg" → p ≠ "HAvg" →
        calculateFinal g p s
          = (if 0 < s.refLength then round2 (s.sum / s.refLength) else 0))
      ∧ ((g = "cuts" ∨ g = "cmt") →
        calculateFinal g p s
          = (if 0 < s.yarnLength then round2 (s.sum / s.yarnLength * 100) else 0))
      ∧ (g ≠ "quality" → g ≠ "cuts" → g ≠ "cmt" → calculateFinal g p s = s.sum))
    ∧ (∀ (g p : String) (s : TrendStat), drillDownVal g p s = calculateFinal g p s)
    ∧ ((tmBucket (buildTrendMap cacheT "unit" "NCuts" none none) "2024-01-01"
        "U-1").map (fun b => calculateFinal "cuts" "NCuts" b.stat) = some 2) := by
  refine ⟨?_, fun g p s => rfl, ?_⟩
  · intro g p s
    refine ⟨?_, ?_, ?_, ?_⟩
    · rintro rfl (rfl | rfl) <;> rfl
    · rintro rfl hp1 hp2
      unfold calculateFinal
      rw [if_pos (by simp), if_neg (by simp [hp1, hp2])]
    · rintro (rfl | rfl) <;> rfl
    · intro hg1 hg2 hg3
      unfold calculateFinal
      rw [if_neg (by simp [hg1]), if_neg (by simp [hg2, hg3])]
      by_cases ha : (g == "alarms")
      · rw [if_pos ha]
      · rw [if_neg ha]
  · simp +decide only [buildTrendMap, cacheT, List.foldl_cons, List.foldl_nil,
      addTrendRow, labelOf, trendParamVal, tmBucket, updateAssoc, bumpStat,
      emptyBucket, emptyTStat, machKeyOf, rowIPRef, rowYarnLen, jsOrNum, getExact,
      colValCI, List.find?, List.filter, Option.map, Option.bind, Option.getD, t1, t2]
    norm_num +decide [calculateFinal, round2, round_eq]

/-- Witness for C4 at the cuts group with a concrete accumulator. -/
theorem spec_C4_witness :
    ("cuts" = "cuts" ∨ "cuts" = "cmt")
    ∧ calculateFinal "cuts" "NCuts" ⟨10, 0, 500, 2⟩
        = (if 0 < (⟨10, 0, 500, 2⟩ : TrendStat).yarnLength
            then round2 ((⟨10, 0, 500, 2⟩ : TrendStat).sum
              / (⟨10, 0, 500, 2⟩ : TrendStat).yarnLength * 100)
            else 0) :=
  ⟨Or.inl rfl, ((spec_C4.1 "cuts" "NCuts" ⟨10, 0, 500, 2⟩).2.2.1 (Or.inl rfl))⟩

/-- Counterexample to C5 as stated: a row with yarn length 100 (below 300)
does influence the trend engine's buckets — with the row present the bucket
sum is 5, with it absent there is no bucket at all.  The trend accumulation
of lines 697-771 applies no yarn-length threshold. -/
theorem spec_C5_cex :
    rowYarnLen rLow < 300
    ∧ ((tmBucket (buildTrendMap cacheLow "unit" "NCuts" none none) "2024-01-01"
        "U-1").map (fun b => b.stat.sum) = some 5)
    ∧ ((tmBucket (buildTrendMap [("U-1", ([] : List Row))] "unit" "NCuts" none none)
        "2024-01-01" "U-1").map (fun b => b.stat.sum) = none) := by
  refine ⟨by decide, ?_, by decide⟩
  simp +decide only [buildTrendMap, cacheLow, List.foldl_cons, List.foldl_nil,
    addTrendRow, labelOf, trendParamVal, tmBucket, updateAssoc, bumpStat, emptyBucket,
    emptyTStat, machKeyOf, rowIPRef, rowYarnLen, jsOrNum, getExact, colValCI,
    List.find?, Option.map, Option.bind, Option.getD, rLow]
  norm_num

/-- Claim C5 as amended: a row with yarn length below 300 fails
getQuantumData's row filter under every combination of date, shift and
machine filters, so it never influences the unit, article or machine
aggregates of a non-empty cached row set; the trend endpoint, however, does
include such rows (see the counterexample). -/
theorem spec_C5 (td : Option String) (ts : TShift) (mf : Option String) (r : Row)
    (h : rowYarnLen r < 300) :
    rowPasses td ts mf r = false
    ∧ (∀ (u : String) (jsonData : List Row) (latest : Option Rat), jsonData ≠ [] →
        processUnit u (jsonData ++ [r]) td ts mf latest
          = processUnit u jsonData td ts mf latest) := by
  refine ⟨rowPasses_short td ts mf r h, ?_⟩
  intro u jsonData latest hne
  unfold processUnit
  rw [if_neg (by simp [hne]), if_neg (by simp [hne])]
  rw [List.filter_append]
  simp [List.filter, rowPasses_short td ts mf r h]

/-- Witness for the amended C5 at the concrete short row. -/
theorem spec_C5_witness :
    (rowYarnLen rLow < 300)
    ∧ rowPasses none TShift.noFilter none rLow = false :=
  ⟨by decide, (spec_C5 none TShift.noFilter none rLow (by decide)).1⟩

/-- Claim C6: with no date filter, the target date is the most recent
distinct date normally and the second-most-recent in dashboard mode,
falling back to the most recent when only one distinct date exists; with
rows dated 2024-01-01 through 2024-01-03, dashboard mode selects 2024-01-02
and the normal mode 2024-01-03. -/
theorem spec_C6 (c : Cache) (sf : SFilter) (uf : Option String) (d0 d1 : String)
    (rest : List String) :
    (availableDatesOf c uf = d0 :: d1 :: rest →
      (resolveFilters c none sf uf true).targetDate = some d1
      ∧ (resolveFilters c none sf uf false).targetDate = some d0)
    ∧ (availableDatesOf c uf = [d0] →
      (resolveFilters c none sf uf true).targetDate = some d0
      ∧ (resolveFilters c none sf uf false).targetDate = some d0)
    ∧ ((resolveFilters cache3 none SFilter.absent none true).targetDate
        = some "2024-01-02"
      ∧ (resolveFilters cache3 none SFilter.absent none false).targetDate
        = some "2024-01-03") := by
  refine ⟨?_, ?_, by decide⟩
  · intro h
    constructor
    · have h1 := (resolveFilters_noDate c sf uf true d0 (d1 :: rest) h).1
      simpa using h1
    · have h1 := (resolveFilters_noDate c sf uf false d0 (d1 :: rest) h).1
      simpa using h1
  · intro h
    constructor
    · have h1 := (resolveFilters_noDate c sf uf true d0 [] h).1
      simpa using h1
    · have h1 := (resolveFilters_noDate c sf uf false d0 [] h).1
      simpa using h1

/-- Witness for C6 at the concrete three-date cache. -/
theorem spec_C6_witness :
    (availableDatesOf cache3 none = ["2024-01-03", "2024-01-02", "2024-01-01"])
    ∧ (resolveFilters cache3 none SFilter.absent none true).targetDate
        = some "2024-01-02" := by
  have h : availableDatesOf cache3 none
      = ["2024-01-03", "2024-01-02", "2024-01-01"] := by decide
  exact ⟨h,
    ((spec_C6 cache3 SFilter.absent none "2024-01-03" "2024-01-02" ["2024-01-01"]).1
      h).1⟩

/-- Counterexample to C7 as stated: with both an explicit date and an
explicit shift supplied, the defaulting block is skipped and latestShift is
the 'All' sentinel even though shift 2 is the numerically-largest shift
present for the target date. -/
theorem spec_C7_cex :
    shiftsForDateDesc (pooledRows cacheC7 none) "2024-01-01" = [2]
    ∧ (resolveFilters cacheC7 (some "2024-01-01") (SFilter.given 2) none
        false).latestShift = none
    ∧ (resolveFilters cacheC7 (some "2024-01-01") (SFilter.given 2) none
        false).latestShift ≠ some 2 := by
  refine ⟨by decide, by decide, by decide⟩

/-- Claim C7 as amended: the numerically-largest shift for the resolved
target date is exposed as latestShift whenever the date filter is absent
(any shift filter) or the shift filter is absent (any date filter); when an
explicit date is supplied together with an explicit shift or the literal
'all', latestShift is the 'All' sentinel instead. -/
theorem spec_C7 (c : Cache) (uf : Option String) (dash : Bool) :
    (∀ (sf : SFilter) (td : String), (pooledRows c uf).isEmpty = false →
      (resolveFilters c none sf uf dash).targetDate = some td →
      (resolveFilters c none sf uf dash).latestShift
        = (shiftsForDateDesc (pooledRows c uf) td).head?)
    ∧ (∀ d0 : String, (pooledRows c uf).isEmpty = false →
      (resolveFilters c (some d0) SFilter.absent uf dash).latestShift
        = (shiftsForDateDesc (pooledRows c uf) d0).head?)
    ∧ (∀ (d0 : String) (s : Rat),
      (resolveFilters c (some d0) (SFilter.given s) uf dash).latestShift = none
      ∧ (resolveFilters c (some d0) SFilter.all uf dash).latestShift = none) := by
  refine ⟨?_, ?_, ?_⟩
  · intro sf td hne htd
    rcases hd : availableDatesOf c uf with _ | ⟨d0, rest⟩
    · exfalso
      have hnone : (resolveFilters c none sf uf dash).targetDate = none := by
        unfold resolveFilters
        simp [hne, hd, defaultTargetDate]
      rw [hnone] at htd
      exact Option.noConfusion htd
    · obtain ⟨h1, h2⟩ := resolveFilters_noDate c sf uf dash d0 rest hd
      rw [h1] at htd
      rw [h2, Option.some_inj.mp htd]
  · intro d0 hne
    exact resolveFilters_latest_noShift c uf dash d0 hne
  · intro d0 s
    exact resolveFilters_latest_bothGiven c uf dash d0 s

/-- Witness for the amended C7 at the concrete one-row cache. -/
theorem spec_C7_witness :
    ((pooledRows cacheC7 none).isEmpty = false)
    ∧ (resolveFilters cacheC7 (some "2024-01-01") SFilter.absent none
        false).latestShift
        = (shiftsForDateDesc (pooledRows cacheC7 none) "2024-01-01").head? :=
  ⟨by decide, (spec_C7 cacheC7 none false).2.1 "2024-01-01" (by decide)⟩

/-- Counterexample to C8 as stated: when the cached data is non-empty but no
row matches the filters, the fault rate is the number 0, not the 'N/A'
sentinel that the claim asserts for every empty effective row set. -/
theorem spec_C8_cex :
    List.filter (rowPasses none TShift.noFilter none) [rLow] = []
    ∧ resultYarnFaults (processUnit "U-1" [rLow] none TShift.noFilter none none)
        = some 0
    ∧ resultYarnFaults (processUnit "U-1" [rLow] none TShift.noFilter none none)
        ≠ none := by
  refine ⟨by decide, by decide, by decide⟩

/-- Claim C8 as amended: a unit whose cached data is empty returns the early
'N/A' aggregate, and a unit whose cached data is non-empty but matches no
row returns a defined full aggregate with numeric 0 fault rate, zeroed
counters and an empty article list; neither case fails. -/
theorem spec_C8 (u : String) (jsonData : List Row) (td : Option String) (ts : TShift)
    (mf : Option String) (latest : Option Rat)
    (hne : jsonData ≠ []) (hf : jsonData.filter (rowPasses td ts mf) = []) :
    processUnit u [] td ts mf latest = UnitResult.empty u
    ∧ processUnit u jsonData td ts mf latest
        = UnitResult.full (mkUnitData u [] td ts latest)
    ∧ (mkUnitData u [] td ts latest).yarnFaults = 0
    ∧ (mkUnitData u [] td ts latest).articles = []
    ∧ (mkUnitData u [] td ts latest).totalAlarms = 0
    ∧ (mkUnitData u [] td ts latest).totalCuts = 0
    ∧ (mkUnitData u [] td ts latest).alarmsPer1000km = 0
    ∧ (mkUnitData u [] td ts latest).cutsPer100km = 0 := by
  refine ⟨rfl, ?_, rfl, rfl, rfl, rfl, rfl, rfl⟩
  unfold processUnit
  rw [if_neg (by simp [hne]), hf]

/-- Witness for the amended C8 at the concrete non-matching row. -/
theorem spec_C8_witness :
    ([rLow] ≠ [] ∧ List.filter (rowPasses none TShift.noFilter none) [rLow] = [])
    ∧ processUnit "U-1" [rLow] none TShift.noFilter none none
        = UnitResult.full (mkUnitData "U-1" [] none TShift.noFilter none) :=
  ⟨⟨by decide, by decide⟩,
    (spec_C8 "U-1" [rLow] none TShift.noFilter none none (by decide) (by decide)).2.1⟩

/-- Claim C9: when one unit's load fails and the other units' loads succeed,
the refreshed cache keeps the failed unit's prior snapshot unchanged and
stores the new rows for the others, the published cache is the composite
built after all loads complete, and lastFetchTime advances to the refresh
time. -/
theorem spec_C9 (old : Cache) (live : Option (List UnitResult)) (lft : Option Nat)
    (load : String → Except Unit (List Row)) (now : Nat) (u0 : String)
    (rowsF : String → List Row)
    (hu0 : u0 ∈ allUnits)
    (hfail : load u0 = Except.error ())
    (hok : ∀ u, u ∈ allUnits → u ≠ u0 → load u = Except.ok (rowsF u)) :
    cacheGet (updateQuantumLiveData ⟨old, live, lft⟩ load now).cache u0
        = cacheGet old u0
    ∧ (∀ u, u ∈ allUnits → u ≠ u0 →
        cacheGet (updateQuantumLiveData ⟨old, live, lft⟩ load now).cache u = rowsF u)
    ∧ (updateQuantumLiveData ⟨old, live, lft⟩ load now).lastFetchTime = some now
    ∧ (updateQuantumLiveData ⟨old, live, lft⟩ load now).cache
        = fetchAllUnitsData old load := by
  refine ⟨?_, ?_, rfl, rfl⟩
  · rw [show (updateQuantumLiveData ⟨old, live, lft⟩ load now).cache
        = fetchAllUnitsData old load from rfl]
    rw [fetchAllUnitsData_get old load u0 hu0, hfail]
  · intro u hu hne
    rw [show (updateQuantumLiveData ⟨old, live, lft⟩ load now).cache
        = fetchAllUnitsData old load from rfl]
    rw [fetchAllUnitsData_get old load u hu, hok u hu hne]

/-- Witness for C9 with a loader failing exactly on U-2. -/
theorem spec_C9_witness :
    ("U-2" ∈ allUnits ∧ loadW "U-2" = Except.error ())
    ∧ cacheGet (updateQuantumLiveData ⟨oldW, none, none⟩ loadW 5).cache "U-2"
        = cacheGet oldW "U-2"
    ∧ (updateQuantumLiveData ⟨oldW, none, none⟩ loadW 5).lastFetchTime = some 5 := by
  have h := spec_C9 oldW none none loadW 5 "U-2" rowsW (by decide) rfl ?hok
  case hok =>
    intro u hu hne
    fin_cases hu <;> first | rfl | (exact absurd rfl hne)
  exact ⟨⟨by decide, rfl⟩, h.1, h.2.2.1⟩

/-- Claim C10: at unit, article and machine granularity each quality
column's accumulator counts every filtered row in its scope regardless of
column presence, a missing stored column contributes 0 to the sum, and the
CVAvg mean therefore divides by the number of rows in scope. -/
theorem spec_C10 (records : List Row) (col : String) (h : col ∈ qualityColumns) :
    ((unitQualityOf records col).count = records.length
      ∧ (unitQualityOf records col).sum
          = ((records.map (fun r => qualityValUnit r col)).sum))
    ∧ (∀ a ∈ buildArticleMap records, ∀ col2 ∈ qualityColumns,
        (a.quality col2).count = (recordsForArt records a.articleNumber).length)
    ∧ (∀ a ∈ buildArticleMap records, ∀ m ∈ a.machines, ∀ col2 ∈ qualityColumns,
        (m.quality col2).count
          = (recordsForMach records a.articleNumber m.machineName).length)
    ∧ (∀ (r : Row) (col2 : String), col2 ≠ "IPI" → col2 ≠ "HSIPI" →
        r.cols.find? (fun kv => strLower kv.1 == strLower col2) = none →
        qualityValUnit r col2 = 0)
    ∧ (records ≠ [] →
        unitQualFinal (unitQualityOf records "CVAvg") "CVAvg"
          = round2 ((unitQualityOf records "CVAvg").sum / (records.length : Rat))) := by
  refine ⟨?_, ?_, ?_, ?_, ?_⟩
  · rw [unitQualityOf_char records col h]
    exact ⟨rfl, rfl⟩
  · intro a ha col2 hcol2
    exact ((buildArticleMap_spec records).2.2 a ha).1 col2 hcol2
  · intro a ha m hm col2 hcol2
    exact ((buildArticleMap_spec records).2.2 a ha).2.2.2 m hm col2 hcol2
  · intro r col2 h1 h2 hfind
    unfold qualityValUnit
    rw [if_neg (by simp [h1]), if_neg (by simp [h2])]
    unfold colValCI
    rw [hfind]
  · intro hne
    have hcv : "CVAvg" ∈ qualityColumns := by decide
    have hc := unitQualityOf_char records "CVAvg" hcv
    have hpos : 0 < (unitQualityOf records "CVAvg").count := by
      rw [hc]
      show 0 < records.length
      exact List.length_pos.mpr hne
    unfold unitQualFinal
    rw [if_pos (by simp), if_pos hpos, hc]

/-- Witness for C10 at a concrete two-row record set where one row lacks the
CVAvg column. -/
theorem spec_C10_witness :
    ("CVAvg" ∈ qualityColumns)
    ∧ (unitQualityOf [rowA, rowB] "CVAvg").count = [rowA, rowB].length :=
  ⟨by decide, ((spec_C10 [rowA, rowB] "CVAvg" (by decide)).1).1⟩
